import Mathlib

/-!
Verification development for the HornVecs repository.

The definitions below are a shallow embedding of the CLI driver
(`src/main.cc`) and, where the engine sources are not part of this
snapshot, of the behaviour the specification ascribes to them
(such definitions carry a doc comment starting `Modelled from the spec:`).
Machine floats are modelled as rationals; external helpers of the C++
standard library (`std::stoi`, `std::stof`, `std::sqrt`, file-system
probes) are passed in as function parameters.
-/

namespace HornVecs

/-! ## CLI embedding of `dump` (main.cc, lines 303-334) -/

/-- Observable outcome of one run of the `dump` command. -/
inductive DumpOutcome where
  | usageExit                  -- printDumpUsage then exit(EXIT_FAILURE)
  | dumped (what : String)     -- the requested section written to stdout
  | refused (msg : String)     -- stderr message, nothing dumped
  deriving DecidableEq, Repr

/-- Embedding of `dump` from main.cc.  `args` is the full argv vector and
`isQuant` the loaded model's quantization flag. -/
def dump (args : List String) (isQuant : Bool) : DumpOutcome :=
  if args.length < 4 then .usageExit
  else if args.getD 3 "" = "args" then .dumped "args"
  else if args.getD 3 "" = "dict" then .dumped "dict"
  else if args.getD 3 "" = "input" then
    (if isQuant then .refused "Not supported for quantized models."
     else .dumped "input")
  else if args.getD 3 "" = "output" then
    (if isQuant then .refused "Not supported for quantized models."
     else .dumped "output")
  else .usageExit

/-- Whether `pat` occurs as a contiguous substring of `s`; used to state
facts about the error messages of `test` and `predict`. -/
def containsSub (s pat : String) : Bool :=
  (List.range (s.length + 1)).any fun i =>
    (s.data.drop i).take pat.length = pat.data

/-! ## CLI embedding of `quantize` (main.cc, lines 86-100) -/

/-- One run of the `quantize` command, as a sequence of effects. -/
inductive QEffect where
  | printQuantizeUsage
  | printHelp
  | exitCode (c : Nat)
  | loadModelFrom (path : String)
  | quantizeModel
  | saveModelFile
  deriving DecidableEq, Repr

/-- Embedding of `quantize` from main.cc.  `output` is the value the
(external) argument parser assigns to the `-output` option. -/
def quantize (args : List String) (output : String) : List QEffect :=
  if args.length < 3 then
    [.printQuantizeUsage, .printHelp, .exitCode 1]
  else
    [.loadModelFrom (output ++ ".bin"), .quantizeModel, .saveModelFile,
     .exitCode 0]

/-! ## CLI embedding of the k/threshold argument parsing shared by
`test` (main.cc, lines 126-138) and `predict` (lines 163-175) -/

/-- Embedding of the argument-count check and k/threshold extraction of
`test` and `predict`.  `stoi` and `stof` stand for the C++ conversions;
`none` models the usage-print-and-exit branch. -/
def parseKTh (args : List String) (stoi : String → Int) (stof : String → ℚ) :
    Option (Int × ℚ) :=
  if args.length < 4 ∨ 6 < args.length then none
  else some
    (if 4 < args.length then stoi (args.getD 4 "") else 1,
     if args.length = 6 then stof (args.getD 5 "") else 0)

/-! ## CLI embedding of the input-file opening of `test` (main.cc,
lines 144-155) and `predict` (lines 181-192) -/

/-- Outcome of the file-opening branch of `test`/`predict`. -/
inductive FileOutcome where
  | openedStdin
  | openedFile (path : String)
  | failed (msg : String) (exitCode : Nat)
  deriving DecidableEq, Repr

/-- Embedding of the test-data opening branch of `test`; `isOpen` models
whether `std::ifstream` can open the path. -/
def testOpenFile (infile : String) (isOpen : String → Bool) : FileOutcome :=
  if infile = "-" then .openedStdin
  else if isOpen infile then .openedFile infile
  else .failed "Test file cannot be opened!" 1

/-- Embedding of the input-file opening branch of `predict`. -/
def predictOpenFile (infile : String) (isOpen : String → Bool) : FileOutcome :=
  if infile = "-" then .openedStdin
  else if isOpen infile then .openedFile infile
  else .failed "Input file cannot be opened!" 1

/-! ## CLI embedding of `train` (main.cc, lines 291-301) -/

/-- Artifact files a training run persists. -/
inductive Artifact where
  | modelBin        -- saveModel(): binary parameter file
  | vectorsText     -- saveVectors(): text vectors file
  | outputMatrix    -- saveOutput(): output matrix file
  deriving DecidableEq, Repr

/-- Embedding of `train` from main.cc: the artifacts persisted by a
successful run, in order. -/
def trainArtifacts (saveOutput : Bool) : List Artifact :=
  [.modelBin, .vectorsText] ++ if saveOutput then [.outputMatrix] else []

/-- Modelled from the spec: `saveVectors` (hornvecs.cc, not in this
snapshot) writes one row per vocabulary entry, the token followed by its
`dim` embedding values. -/
def saveVectorsRows (vocab : List String) (emb : String → List ℚ) :
    List (String × List ℚ) :=
  vocab.map fun w => (w, emb w)

end HornVecs

open HornVecs

/-- C10: the quantize command loads the model from the `-output` value
with ".bin" appended, and with fewer than three CLI words it prints usage
and help and exits non-zero without loading anything. -/
theorem c10_quantize_load_path (args : List String) (output : String) :
    (args.length < 3 →
      quantize args output =
        [.printQuantizeUsage, .printHelp, .exitCode 1] ∧
      ∀ p, QEffect.loadModelFrom p ∉ quantize args output) ∧
    (3 ≤ args.length →
      QEffect.loadModelFrom (output ++ ".bin") ∈ quantize args output ∧
      ∀ p, QEffect.loadModelFrom p ∈ quantize args output →
        p = output ++ ".bin") := by
  constructor
  · intro h
    refine ⟨by simp [quantize, h], ?_⟩
    intro p hp
    simp [quantize, h] at hp
  · intro h
    have h' : ¬ args.length < 3 := not_lt.mpr h
    refine ⟨by simp [quantize, h'], ?_⟩
    intro p hp
    simp [quantize, h'] at hp
    exact hp

theorem c10_witness :
    ((["hornvecs", "quantize"] : List String).length < 3 →
      quantize ["hornvecs", "quantize"] "m" =
        [.printQuantizeUsage, .printHelp, .exitCode 1] ∧
      ∀ p, QEffect.loadModelFrom p ∉ quantize ["hornvecs", "quantize"] "m") ∧
    (3 ≤ (["hornvecs", "quantize"] : List String).length →
      QEffect.loadModelFrom ("m" ++ ".bin") ∈
        quantize ["hornvecs", "quantize"] "m" ∧
      ∀ p, QEffect.loadModelFrom p ∈ quantize ["hornvecs", "quantize"] "m" →
        p = "m" ++ ".bin") :=
  c10_quantize_load_path ["hornvecs", "quantize"] "m"

/-- C9: for test/predict/predict-prob, an omitted k defaults to 1 and the
threshold defaults to 0.0; the threshold is parsed only when exactly six
CLI words are present, so it cannot be overridden while k stays at its
default. -/
theorem c9_k_threshold_defaults (args : List String)
    (stoi : String → Int) (stof : String → ℚ) (k : Int) (th : ℚ)
    (h : parseKTh args stoi stof = some (k, th)) :
    (args.length = 4 → k = 1 ∧ th = 0) ∧
    (args.length = 5 → k = stoi (args.getD 4 "") ∧ th = 0) ∧
    (th ≠ 0 → args.length = 6 ∧ k = stoi (args.getD 4 "")) := by
  unfold parseKTh at h
  by_cases hb : args.length < 4 ∨ 6 < args.length
  · simp [hb] at h
  · simp only [hb, if_false] at h
    obtain ⟨hk, hth⟩ := Prod.mk.injEq .. ▸ Option.some.injEq .. ▸ h
    refine ⟨?_, ?_, ?_⟩
    · intro h4
      constructor
      · rw [← hk]; simp [h4]
      · rw [← hth]; simp [h4]
    · intro h5
      constructor
      · rw [← hk]; simp [h5]
      · rw [← hth]; simp [h5]
    · intro hne
      have h6 : args.length = 6 := by
        by_contra h6
        exact hne (by rw [← hth]; simp [h6])
      refine ⟨h6, ?_⟩
      rw [← hk]; simp [h6]

theorem c9_witness :
    parseKTh ["hornvecs", "test", "m.bin", "t.txt"]
        (fun _ => 7) (fun _ => (1 : ℚ)) = some (1, 0) ∧
    ((["hornvecs", "test", "m.bin", "t.txt"] : List String).length = 4 →
      (1 : Int) = 1 ∧ (0 : ℚ) = 0) := by
  have h : parseKTh ["hornvecs", "test", "m.bin", "t.txt"]
      (fun _ => 7) (fun _ => (1 : ℚ)) = some (1, 0) := by
    simp [parseKTh]
  exact ⟨h, (c9_k_threshold_defaults _ _ _ _ _ h).1⟩

/-- C1 counterexample: on a quantized model, `dump <model> input` is
refused outright ("Not supported for quantized models.") while on the
corresponding full-precision model it dumps the input matrix, so the
read-only operation neither behaves identically nor avoids refusal. -/
theorem c1_counterexample :
    dump ["hornvecs", "dump", "model.ftz", "input"] true =
      .refused "Not supported for quantized models." ∧
    dump ["hornvecs", "dump", "model.ftz", "input"] false =
      .dumped "input" ∧
    dump ["hornvecs", "dump", "model.ftz", "input"] true ≠
      dump ["hornvecs", "dump", "model.ftz", "input"] false := by
  refine ⟨by rfl, by rfl, by decide⟩

/-- C1 (amended): all read-only operations behave identically on
quantized and full-precision models except `dump` with option `input` or
`output`, which is refused outright on a quantized model with the message
"Not supported for quantized models."; `dump` with any other option
behaves identically on both. -/
theorem c1_dump_quant_divergence (args : List String) (q : Bool)
    (h : dump args q ≠ dump args false) :
    q = true ∧
    (args.getD 3 "" = "input" ∨ args.getD 3 "" = "output") ∧
    dump args q = .refused "Not supported for quantized models." := by
  cases q with
  | false => exact absurd rfl h
  | true =>
    refine ⟨rfl, ?_⟩
    unfold dump at h ⊢
    by_cases hlen : args.length < 4
    · rw [if_pos hlen, if_pos hlen] at h; exact absurd rfl h
    · rw [if_neg hlen, if_neg hlen] at h
      rw [if_neg hlen]
      by_cases ha : args.getD 3 "" = "args"
      · rw [if_pos ha, if_pos ha] at h; exact absurd rfl h
      · rw [if_neg ha, if_neg ha] at h
        rw [if_neg ha]
        by_cases hd : args.getD 3 "" = "dict"
        · rw [if_pos hd, if_pos hd] at h; exact absurd rfl h
        · rw [if_neg hd, if_neg hd] at h
          rw [if_neg hd]
          by_cases hi : args.getD 3 "" = "input"
          · refine ⟨Or.inl hi, ?_⟩
            rw [if_pos hi]
            simp
          · rw [if_neg hi, if_neg hi] at h
            rw [if_neg hi]
            by_cases ho : args.getD 3 "" = "output"
            · refine ⟨Or.inr ho, ?_⟩
              rw [if_pos ho]
              simp
            · rw [if_neg ho, if_neg ho] at h
              exact absurd rfl h

theorem c1_witness :
    dump ["hornvecs", "dump", "m.ftz", "output"] true ≠
      dump ["hornvecs", "dump", "m.ftz", "output"] false ∧
    (true = true ∧
      ((["hornvecs", "dump", "m.ftz", "output"] : List String).getD 3 ""
          = "input" ∨
        (["hornvecs", "dump", "m.ftz", "output"] : List String).getD 3 ""
          = "output") ∧
      dump ["hornvecs", "dump", "m.ftz", "output"] true =
        .refused "Not supported for quantized models.") := by
  have h : dump ["hornvecs", "dump", "m.ftz", "output"] true ≠
      dump ["hornvecs", "dump", "m.ftz", "output"] false := by decide
  exact ⟨h, c1_dump_quant_divergence ["hornvecs", "dump", "m.ftz", "output"]
    true h⟩

/-- C8 counterexample: when the test file "/data/test.txt" cannot be
opened, `test` exits non-zero with the fixed message "Test file cannot be
opened!", which does not include the offending path (and `predict`
behaves the same with its own fixed message). -/
theorem c8_counterexample :
    testOpenFile "/data/test.txt" (fun _ => false) =
      .failed "Test file cannot be opened!" 1 ∧
    containsSub "Test file cannot be opened!" "/data/test.txt" = false ∧
    predictOpenFile "/data/test.txt" (fun _ => false) =
      .failed "Input file cannot be opened!" 1 ∧
    containsSub "Input file cannot be opened!" "/data/test.txt" = false := by
  refine ⟨by rfl, by decide, by rfl, by decide⟩

/-- C8 (amended): an unopenable test/input file is fatal — `test` and
`predict` report a fixed human-readable message and exit with a non-zero
status — but the error report is a constant string that does not include
the offending path. -/
theorem c8_io_error_fatal_no_path (path : String) (isOpen : String → Bool)
    (hp : path ≠ "-") (ho : isOpen path = false) :
    testOpenFile path isOpen = .failed "Test file cannot be opened!" 1 ∧
    predictOpenFile path isOpen =
      .failed "Input file cannot be opened!" 1 ∧
    (∀ path' isOpen', path' ≠ "-" → isOpen' path' = false →
      testOpenFile path' isOpen' = testOpenFile path isOpen) ∧
    (1 : Nat) ≠ 0 := by
  refine ⟨by simp [testOpenFile, hp, ho], by simp [predictOpenFile, hp, ho],
    ?_, one_ne_zero⟩
  intro path' isOpen' hp' ho'
  simp [testOpenFile, hp, ho, hp', ho']

theorem c8_witness :
    ("/data/test.txt" : String) ≠ "-" ∧
    testOpenFile "/data/test.txt" (fun _ => false) =
      .failed "Test file cannot be opened!" 1 := by
  have h := c8_io_error_fatal_no_path "/data/test.txt" (fun _ => false)
    (by decide) rfl
  exact ⟨by decide, h.1⟩

namespace HornVecs

/-! ## Spec-modelled learning-rate schedule (spec 4.3) -/

/-- Modelled from the spec: the effective learning rate recomputed during
training as `lr0 * (1 - processedTokens/totalTokensTarget)`, clamped to
not go negative (model.cc / trainer not in this snapshot). -/
def effectiveLr (lr0 processed total : ℚ) : ℚ :=
  max 0 (lr0 * (1 - processed / total))

/-! ## Spec-modelled serializer (spec 4.5) -/

/-- Modelled from the spec: a serialized model stream — an optional
magic/version header (`none` when the stream is truncated before it) and
an optional body (`none` when the stream is truncated after the header).
The serializer source is not in this snapshot. -/
structure ModelStream (M : Type) where
  header : Option (Int × Int)
  body : Option M

/-- Error category raised by a failed model load. -/
inductive LoadError where
  | formatError
  deriving DecidableEq, Repr

/-- Modelled from the spec: `loadModel` validates magic/version and fails
with a format error on mismatch or truncated stream; on success it
returns the fully loaded fresh model. -/
def loadModel {M : Type} (magic version : Int) (s : ModelStream M) :
    Except LoadError M :=
  match s.header with
  | none => .error .formatError
  | some (m, v) =>
    if m = magic ∧ v = version then
      match s.body with
      | none => .error .formatError
      | some mdl => .ok mdl
    else .error .formatError

/-- Modelled from the spec: the caller loads into a fresh instance and
swaps only on success, so a failed load leaves the caller's existing
model untouched. -/
def loadIntoCaller {M : Type} (magic version : Int) (current : M)
    (s : ModelStream M) : M × Except LoadError Unit :=
  match loadModel magic version s with
  | .ok m => (m, .ok ())
  | .error e => (current, .error e)

end HornVecs

/-- C3: a successful training run persists exactly two artifact files —
the binary parameter file and the text vectors file with one row per
vocabulary entry (token then `dim` values) — plus the output matrix as a
third artifact if and only if `saveOutput` is set. -/
theorem c3_train_artifacts (saveOutput : Bool) (vocab : List String)
    (emb : String → List ℚ) (dim : Nat)
    (hemb : ∀ w, (emb w).length = dim) :
    ((trainArtifacts saveOutput).length = if saveOutput then 3 else 2) ∧
    Artifact.modelBin ∈ trainArtifacts saveOutput ∧
    Artifact.vectorsText ∈ trainArtifacts saveOutput ∧
    (Artifact.outputMatrix ∈ trainArtifacts saveOutput ↔
      saveOutput = true) ∧
    (saveVectorsRows vocab emb).length = vocab.length ∧
    ∀ r ∈ saveVectorsRows vocab emb, r.1 ∈ vocab ∧ r.2.length = dim := by
  refine ⟨?_, ?_, ?_, ?_, ?_, ?_⟩
  · cases saveOutput <;> rfl
  · cases saveOutput <;> simp [trainArtifacts]
  · cases saveOutput <;> simp [trainArtifacts]
  · cases saveOutput <;> simp [trainArtifacts]
  · simp [saveVectorsRows]
  · intro r hr
    simp only [saveVectorsRows, List.mem_map] at hr
    obtain ⟨w, hw, rfl⟩ := hr
    exact ⟨hw, hemb w⟩

theorem c3_witness :
    (∀ w, ((fun (_ : String) => [(0 : ℚ), 0]) w).length = 2) ∧
    ((trainArtifacts true).length = if true then 3 else 2) ∧
    Artifact.modelBin ∈ trainArtifacts true ∧
    Artifact.vectorsText ∈ trainArtifacts true ∧
    (Artifact.outputMatrix ∈ trainArtifacts true ↔ true = true) ∧
    (saveVectorsRows ["a", "b"] (fun _ => [(0 : ℚ), 0])).length =
      (["a", "b"] : List String).length ∧
    ∀ r ∈ saveVectorsRows ["a", "b"] (fun _ => [(0 : ℚ), 0]),
      r.1 ∈ (["a", "b"] : List String) ∧ r.2.length = 2 :=
  ⟨fun _ => rfl,
    c3_train_artifacts true ["a", "b"] (fun _ => [0, 0]) 2 fun _ => rfl⟩

/-- C4: in a single-threaded run with lr0 > 0, the effective learning
rate equals `lr0 * (1 - processed/total)` clamped to be non-negative, is
non-increasing as processed tokens grow, and is exactly 0 only when the
processed-token count reaches the configured total-token target. -/
theorem c4_learning_rate_schedule (lr0 total p1 p2 : ℚ)
    (hlr : 0 < lr0) (ht : 0 < total) (h12 : p1 ≤ p2) (h2 : p2 ≤ total) :
    effectiveLr lr0 p1 total = lr0 * (1 - p1 / total) ∧
    effectiveLr lr0 p2 total ≤ effectiveLr lr0 p1 total ∧
    (effectiveLr lr0 p2 total = 0 ↔ p2 = total) := by
  have key : ∀ p : ℚ, p ≤ total →
      effectiveLr lr0 p total = lr0 * (1 - p / total) := by
    intro p hp
    have hd : p / total ≤ 1 := (div_le_one ht).mpr hp
    have hnn : 0 ≤ lr0 * (1 - p / total) := mul_nonneg hlr.le (by linarith)
    simpa [effectiveLr] using max_eq_right hnn
  have hp1 : p1 ≤ total := le_trans h12 h2
  refine ⟨key p1 hp1, ?_, ?_⟩
  · rw [key p1 hp1, key p2 h2]
    have hd : p1 / total ≤ p2 / total := by gcongr
    exact mul_le_mul_of_nonneg_left (by linarith) hlr.le
  · rw [key p2 h2]
    constructor
    · intro h0
      rcases mul_eq_zero.mp h0 with h | h
      · exact absurd h hlr.ne'
      · have hq : p2 / total = 1 := by linarith
        field_simp [ht.ne'] at hq
        exact hq
    · intro h
      subst h
      rw [div_self ht.ne']
      ring

theorem c4_witness :
    effectiveLr 1 1 4 = 1 * (1 - 1 / 4) ∧
    effectiveLr 1 2 4 ≤ effectiveLr 1 1 4 ∧
    (effectiveLr 1 2 4 = 0 ↔ (2 : ℚ) = 4) :=
  c4_learning_rate_schedule 1 4 1 2 (by norm_num) (by norm_num)
    (by norm_num) (by norm_num)

/-- C2: `loadModel` either succeeds or fails with a format error on a
magic/version mismatch or a truncated stream, and on every failed load
the caller's existing model state is left unchanged (fresh instance,
swap only on success). -/
theorem c2_load_no_partial_mutation {M : Type} (magic version : Int)
    (current : M) (s : ModelStream M) :
    ((∃ m, loadModel magic version s = .ok m) ∨
      loadModel magic version s = .error .formatError) ∧
    (s.header = none → loadModel magic version s = .error .formatError) ∧
    (∀ mg v, s.header = some (mg, v) → ¬(mg = magic ∧ v = version) →
      loadModel magic version s = .error .formatError) ∧
    (s.body = none → loadModel magic version s = .error .formatError) ∧
    (∀ e, loadModel magic version s = .error e →
      (loadIntoCaller magic version current s).1 = current ∧
      e = .formatError) := by
  obtain ⟨hdr, body⟩ := s
  refine ⟨?_, ?_, ?_, ?_, ?_⟩
  · cases hdr with
    | none => exact Or.inr rfl
    | some hv =>
      obtain ⟨m, v⟩ := hv
      by_cases hmv : m = magic ∧ v = version
      · cases body with
        | none => exact Or.inr (by simp [loadModel, hmv])
        | some mdl => exact Or.inl ⟨mdl, by simp [loadModel, hmv]⟩
      · exact Or.inr (by simp [loadModel, hmv])
  · intro h
    cases hdr with
    | none => rfl
    | some hv => exact absurd h (by simp)
  · intro mg v hh hmv
    cases hdr with
    | none => exact absurd hh (by simp)
    | some hv =>
      injection hh with hv1
      subst hv1
      simp [loadModel, hmv]
  · intro hb
    subst hb
    cases hdr with
    | none => rfl
    | some hv =>
      obtain ⟨m, v⟩ := hv
      by_cases hmv : m = magic ∧ v = version
      · simp [loadModel, hmv]
      · simp [loadModel, hmv]
  · intro e he
    cases e
    refine ⟨?_, rfl⟩
    simp [loadIntoCaller, he]

theorem c2_witness :
    loadModel 1 1 (⟨some (0, 1), none⟩ : ModelStream Nat) =
      .error .formatError ∧
    (loadIntoCaller 1 1 (5 : Nat) ⟨some (0, 1), none⟩).1 = 5 := by
  have h : loadModel 1 1 (⟨some (0, 1), none⟩ : ModelStream Nat) =
      .error .formatError := by rfl
  exact ⟨h, ((c2_load_no_partial_mutation 1 1 5 ⟨some (0, 1), none⟩).2.2.2.2
    .formatError h).1⟩

namespace HornVecs

/-! ## Spec-modelled Dictionary.build subsampling (spec 4.1) -/

/-- Raw token tally accumulated during the first corpus pass. -/
structure RawEntry where
  word : String
  count : Nat
  deriving DecidableEq, Repr

/-- Modelled from the spec: the discard probability for frequent-word
subsampling, `sqrt(t/f) + t/f` clamped to `[0,1]`; `sqrtQ` stands for
the external square-root routine (dictionary.cc not in this snapshot). -/
def pdiscard (sqrtQ : ℚ → ℚ) (t f : ℚ) : ℚ :=
  min 1 (max 0 (sqrtQ (t / f) + t / f))

/-- Modelled from the spec: `Dictionary.build` finalizes the vocabulary —
sorts by count descending, discards entries below `minCount`, and pairs
each retained word with its discard probability computed from its corpus
frequency `count / ntokens` (dictionary.cc not in this snapshot). -/
def build (sqrtQ : ℚ → ℚ) (t : ℚ) (minCount ntokens : Nat)
    (raw : List RawEntry) : List (RawEntry × ℚ) :=
  (((raw.filter fun e => minCount ≤ e.count).insertionSort
      fun a b => b.count ≤ a.count).map
    fun e => (e, pdiscard sqrtQ t ((e.count : ℚ) / (ntokens : ℚ))))

/-! ## Spec-modelled test metrics (spec 8, main.cc lines 143-160) -/

/-- One labelled example of a held-out test file: its true labels and
the content words on the line. -/
structure TestExample where
  labels : List String
  words : List String
  deriving DecidableEq, Repr

/-- Modelled from the spec: `test` only scores lines that carry at least
one label and at least one content word (hornvecs.cc not in this
snapshot). -/
def validExamples (exs : List TestExample) : List TestExample :=
  exs.filter fun e => ¬e.labels.isEmpty ∧ ¬e.words.isEmpty

/-- Modelled from the spec: the number of predicted labels over all
scored examples that occur among the example's true labels; `predictK`
stands for the model's top-k prediction on a line. -/
def correctCount (predictK : List String → Nat → List String) (k : Nat)
    (exs : List TestExample) : Nat :=
  ((validExamples exs).map fun e =>
    ((predictK e.words k).filter fun l => e.labels.contains l).length).sum

/-- Modelled from the spec: `test` reports
`(N, precision@k, recall@k) = (nexamples, correct / (k*nexamples),
correct / nlabels)` where `nlabels` is the total number of true labels
over the scored examples (hornvecs.cc not in this snapshot). -/
def testMetrics (predictK : List String → Nat → List String) (k : Nat)
    (exs : List TestExample) : Int × ℚ × ℚ :=
  (((validExamples exs).length : Int),
    (correctCount predictK k exs : ℚ) /
      ((k : ℚ) * ((validExamples exs).length : ℚ)),
    (correctCount predictK k exs : ℚ) /
      (((((validExamples exs).map fun e => e.labels.length).sum : Nat) :
        ℚ)))

/-! ## Spec-modelled getWordVector (spec 4.3, main.cc lines 197-211) -/

/-- Componentwise sum of two rational rows (Vector::addRow). -/
def vadd (u v : List ℚ) : List ℚ := List.zipWith (· + ·) u v

/-- Accumulate a list of rows into a zero vector of length `dim`. -/
def sumRows (dim : Nat) (rows : List (List ℚ)) : List ℚ :=
  rows.foldl vadd (List.replicate dim 0)

/-- Modelled from the spec: a trained model as `getWordVector` needs it —
the vocabulary in id order, the embedding dimension, the rows of the
input matrix, and the dictionary's character-n-gram bucket ids for a
word (dictionary.cc / hornvecs.cc not in this snapshot). -/
structure WordModel where
  vocab : List String
  dim : Nat
  inputRow : Nat → List ℚ
  ngramIds : String → List Nat

/-- Modelled from the spec: the subword id sequence of a word — its own
vocabulary id first when the word is in-vocabulary, then its n-gram
bucket ids; an out-of-vocabulary word falls back to subwords only. -/
def getSubwords (m : WordModel) (w : String) : List Nat :=
  match m.vocab.findIdx? (· == w) with
  | some i => i :: m.ngramIds w
  | none => m.ngramIds w

/-- Modelled from the spec: `getWordVector` zeroes an accumulator, adds
the input row of every subword id, and divides by the number of subwords
when it is positive; with no subwords it yields the zero vector. -/
def getWordVector (m : WordModel) (w : String) : List ℚ :=
  if (getSubwords m w).length = 0 then List.replicate m.dim 0
  else (sumRows m.dim ((getSubwords m w).map m.inputRow)).map
    fun x => x / ((getSubwords m w).length : ℚ)

end HornVecs

/-- C5: during Dictionary build, every retained word with corpus
frequency f and subsampling threshold t gets discard probability
`sqrt(t/f) + t/f` clamped to `[0,1]`, and only words meeting `minCount`
are retained. -/
theorem c5_discard_probability (sqrtQ : ℚ → ℚ) (t : ℚ)
    (minCount ntokens : Nat) (raw : List RawEntry) (e : RawEntry) (p : ℚ)
    (h : (e, p) ∈ build sqrtQ t minCount ntokens raw) :
    p = min 1 (max 0 (sqrtQ (t / ((e.count : ℚ) / (ntokens : ℚ))) +
      t / ((e.count : ℚ) / (ntokens : ℚ)))) ∧
    0 ≤ p ∧ p ≤ 1 ∧ minCount ≤ e.count := by
  simp only [build, List.mem_map] at h
  obtain ⟨e', he', heq⟩ := h
  rw [Prod.mk.injEq] at heq
  obtain ⟨rfl, rfl⟩ := heq
  refine ⟨rfl, le_min (by norm_num) (le_max_left 0 _), min_le_left 1 _, ?_⟩
  have hmem := (List.mem_insertionSort _).mp he'
  have hf := (List.mem_filter.mp hmem).2
  exact of_decide_eq_true hf

theorem c5_witness :
    (3 : ℚ) / 4 =
      min 1 (max 0 ((fun _ : ℚ => (1 : ℚ) / 2)
        ((1 / 4) / (((⟨"the", 4⟩ : RawEntry).count : ℚ) / ((4 : Nat) : ℚ)))
          + (1 / 4) /
            (((⟨"the", 4⟩ : RawEntry).count : ℚ) / ((4 : Nat) : ℚ)))) ∧
    0 ≤ (3 : ℚ) / 4 ∧ (3 : ℚ) / 4 ≤ 1 ∧
    1 ≤ (⟨"the", 4⟩ : RawEntry).count := by
  have hmem : ((⟨"the", 4⟩ : RawEntry), (3 : ℚ) / 4) ∈
      build (fun _ => 1 / 2) (1 / 4) 1 4 [⟨"the", 4⟩] := by
    simp only [build, List.filter, List.insertionSort, List.map]
    norm_num [pdiscard, List.orderedInsert]
  exact c5_discard_probability (fun _ => 1 / 2) (1 / 4) 1 4 [⟨"the", 4⟩]
    ⟨"the", 4⟩ (3 / 4) hmem

/-- C6: on a held-out test file where every example has exactly one
label, `test` with k = 1 reports precision@1 equal to recall@1. -/
theorem c6_precision_recall_equal
    (predictK : List String → Nat → List String) (exs : List TestExample)
    (h1 : ∀ e ∈ exs, e.labels.length = 1) :
    (testMetrics predictK 1 exs).2.1 = (testMetrics predictK 1 exs).2.2 := by
  have key : ∀ l : List TestExample, (∀ e ∈ l, e.labels.length = 1) →
      ((l.map fun e => e.labels.length).sum = l.length) := by
    intro l
    induction l with
    | nil => intro _; rfl
    | cons a as ih =>
      intro hl
      have ha : a.labels.length = 1 := hl a (List.mem_cons_self a as)
      have htl := ih fun e he => hl e (List.mem_cons_of_mem a he)
      simp [List.sum_cons, ha, htl]
      omega
  have hv : ∀ e ∈ validExamples exs, e.labels.length = 1 := by
    intro e he
    exact h1 e (List.mem_of_mem_filter he)
  simp only [testMetrics]
  rw [key (validExamples exs) hv]
  norm_num

theorem c6_witness :
    ((∀ e ∈ ([⟨["__label__pos"], ["great", "movie"]⟩] : List TestExample),
        e.labels.length = 1)) ∧
    (testMetrics (fun _ _ => ["__label__pos"]) 1
        [⟨["__label__pos"], ["great", "movie"]⟩]).2.1 =
      (testMetrics (fun _ _ => ["__label__pos"]) 1
        [⟨["__label__pos"], ["great", "movie"]⟩]).2.2 := by
  have hl : ∀ e ∈ ([⟨["__label__pos"], ["great", "movie"]⟩] :
      List TestExample), e.labels.length = 1 := by
    intro e he
    simp only [List.mem_singleton] at he
    subst he
    rfl
  exact ⟨hl, c6_precision_recall_equal (fun _ _ => ["__label__pos"])
    [⟨["__label__pos"], ["great", "movie"]⟩] hl⟩

/-- C7: for any input word — in-vocabulary or not — `getWordVector` on a
fixed loaded model returns a vector of the configured dimension (no
error; out-of-vocabulary words fall back to subwords only), and two
calls with the same word on the same model return the same vector. -/
theorem c7_getWordVector_total (m : WordModel) (w : String)
    (hrows : ∀ i, (m.inputRow i).length = m.dim) :
    (getWordVector m w).length = m.dim ∧
    (m.vocab.findIdx? (· == w) = none →
      getSubwords m w = m.ngramIds w) ∧
    getWordVector m w = getWordVector m w := by
  have hfold : ∀ (rows : List (List ℚ)) (acc : List ℚ),
      acc.length = m.dim → (∀ r ∈ rows, r.length = m.dim) →
      (rows.foldl vadd acc).length = m.dim := by
    intro rows
    induction rows with
    | nil => intro acc ha _; simpa using ha
    | cons r rs ih =>
      intro acc ha hr
      simp only [List.foldl_cons]
      apply ih
      · simp [vadd, List.length_zipWith, ha,
          hr r (List.mem_cons_self r rs)]
      · intro r' hr'
        exact hr r' (List.mem_cons_of_mem r hr')
  refine ⟨?_, ?_, rfl⟩
  · unfold getWordVector
    by_cases hn : (getSubwords m w).length = 0
    · simp [hn]
    · rw [if_neg hn]
      rw [List.length_map]
      unfold sumRows
      apply hfold
      · simp
      · intro r hr
        obtain ⟨i, _, rfl⟩ := List.mem_map.mp hr
        exact hrows i
  · intro hno
    unfold getSubwords
    rw [hno]

theorem c7_witness :
    (getWordVector ⟨["a"], 2, fun _ => [1, 1], fun _ => [5]⟩ "b").length =
      (⟨["a"], 2, fun _ => [1, 1], fun _ => [5]⟩ : WordModel).dim ∧
    ((⟨["a"], 2, fun _ => [1, 1], fun _ => [5]⟩ : WordModel).vocab.findIdx?
        (· == "b") = none →
      getSubwords ⟨["a"], 2, fun _ => [1, 1], fun _ => [5]⟩ "b" =
        (⟨["a"], 2, fun _ => [1, 1], fun _ => [5]⟩ : WordModel).ngramIds
          "b") ∧
    getWordVector ⟨["a"], 2, fun _ => [1, 1], fun _ => [5]⟩ "b" =
      getWordVector ⟨["a"], 2, fun _ => [1, 1], fun _ => [5]⟩ "b" :=
  c7_getWordVector_total ⟨["a"], 2, fun _ => [1, 1], fun _ => [5]⟩ "b"
    fun _ => rfl
